import Mathlib

/-
Verification of the Renraku repository: a Ricart-Agrawala distributed
mutual-exclusion system (coordinator, node bootstrap, per-node engine).
The definitions below are shallow embeddings of the Rust sources:
  - src/ricart-agrawala/src/main.rs   (Variables, ask_access, free_access, receiver)
  - src/coordinator/src/graph.rs      (Line / Graph parsing)
  - src/coordinator/src/main.rs       (registration and plan-push phases)
  - src/node/src/lib.rs               (bootstrap decoding)
Node identifiers are modelled as Nat (NodeId is a newtype over usize),
HashSet as Finset, Vec as List, and the wire encoding (bincode, fixed-width
little-endian integers) as lists of byte values.
-/

namespace Renraku

/-- Mirrors `enum CriticalState { Out, Asking, In }` in main.rs. -/
inductive CriticalState where
  | Out
  | Asking
  | In
deriving DecidableEq, Repr

/-- Mirrors `enum Message { Request { clock, requester }, Permission { authorizer } }`. -/
inductive Message where
  | Request (clock : ℕ) (requester : ℕ)
  | Permission (authorizer : ℕ)
deriving DecidableEq, Repr

/-- Mirrors `struct Variables` in main.rs: the per-node algorithm state
guarded by the mutex. `differed` is the deferred sequence (a Vec, ordered),
`awaited` the pending-permission set (a HashSet). -/
structure Variables where
  critical_state : CriticalState
  clock : ℕ
  last : ℕ
  prioritized : Bool
  differed : List ℕ
  awaited : Finset ℕ
deriving DecidableEq

/-- Mirrors `impl Default for Variables`. -/
def Variables.default : Variables :=
  { critical_state := CriticalState.Out
    clock := 0
    last := 0
    prioritized := false
    differed := []
    awaited := ∅ }

/-- The priority expression of main.rs line 177:
`v.critical_state != CriticalState::Out && v.last < clock`. -/
def priorityOf (v : Variables) (t : ℕ) : Bool :=
  decide (v.critical_state ≠ CriticalState.Out) && decide (v.last < t)

/-- One inbound message processed by the receiver loop (main.rs lines 167-205).
Returns the updated state and the list of (destination, message) pairs written
to streams.  A `Request` with clock 0 or requester 0, a `Permission` with
authorizer 0, and a `Permission` outside the `Asking` state are dropped with
no state change.  Otherwise a `Request` first applies
`clock <- max(clock, t)`, then computes `prioritized` and either appends the
requester to `differed` or replies `Permission{self}` on the requester's
stream; a `Permission` removes the authorizer from `awaited`. -/
def receiverStep (self : ℕ) (v : Variables) (m : Message) :
    Variables × List (ℕ × Message) :=
  match m with
  | Message.Request clock requester =>
      if clock = 0 ∨ requester = 0 then (v, [])
      else
        let v₁ := { v with clock := max clock v.clock }
        let v₂ := { v₁ with prioritized := priorityOf v₁ clock }
        if v₂.prioritized then
          ({ v₂ with differed := v₂.differed ++ [requester] }, [])
        else
          (v₂, [(requester, Message.Permission self)])
  | Message.Permission authorizer =>
      match v.critical_state with
      | CriticalState.Asking =>
          if authorizer = 0 then (v, [])
          else ({ v with awaited := v.awaited.erase authorizer }, [])
      | _ => (v, [])

/-- The state update of `ask_access` (main.rs lines 95-104), performed under
the mutex: state becomes Asking, `awaited` becomes the ids `1..N` minus self
(`(1..config.0 + 1).filter(|n| n.0 != config.1.0)`), the clock is
incremented and `last` snapshots it. -/
def askUpdate (nodesCount selfId : ℕ) (v : Variables) : Variables :=
  { v with
      critical_state := CriticalState.Asking
      awaited := ((List.range' 1 nodesCount).filter (fun n => n ≠ selfId)).toFinset
      clock := v.clock + 1
      last := v.clock + 1 }

/-- The send loop of `ask_access` (main.rs lines 106-112): one
`Request{clock, self}` per entry of the peer map, carrying the snapshotted
clock. -/
def askSends (selfId snapshottedClock : ℕ) (peers : List ℕ) : List (ℕ × Message) :=
  peers.map (fun id => (id, Message.Request snapshottedClock selfId))

/-- `ask_access` up to the condition-variable wait: the locked state update,
then the requests sent to every neighbour stream. -/
def ask_access (nodesCount selfId : ℕ) (peers : List ℕ) (v : Variables) :
    Variables × List (ℕ × Message) :=
  (askUpdate nodesCount selfId v, askSends selfId (v.clock + 1) peers)

/-- `free_access` (main.rs lines 123-138): state becomes Out, one
`Permission{self}` is sent per entry of `differed` in order, then `differed`
is cleared. -/
def free_access (selfId : ℕ) (v : Variables) : Variables × List (ℕ × Message) :=
  let v₁ := { v with critical_state := CriticalState.Out }
  let sends := v₁.differed.map (fun d => (d, Message.Permission selfId))
  ({ v₁ with differed := [] }, sends)

/-- The priority predicate as the specification states it (spec section 4.4,
with the identifier tie-break): `state ≠ Idle ∧ (last < t ∨ (last = t ∧ self < r))`. -/
def specPriority (v : Variables) (t r selfId : ℕ) : Bool :=
  decide (v.critical_state ≠ CriticalState.Out) &&
    (decide (v.last < t) || (decide (v.last = t) && decide (selfId < r)))

/-! ## Two-node run model

A run of two nodes (ids 1 and 2) joined by the single edge (1,2), built from
the per-operation embeddings above.  Channels are the point-to-point FIFO
streams of the overlay; `recv` delivers the head of a channel to the node's
receiver loop, `enter` models the driver waking from the condition-variable
wait (which the receiver signals exactly when `awaited` is empty in state
`Asking`) and setting the state to `In` (main.rs line 118). -/

/-- Global state of the two-node run: each node's `Variables` and the two
directed message channels (`c12`: in flight from node 1 to node 2). -/
structure Sys where
  v1 : Variables
  v2 : Variables
  c12 : List Message
  c21 : List Message
deriving DecidableEq

/-- Actions available in the two-node run. -/
inductive Act where
  | ask1 | ask2 | recv1 | recv2 | enter1 | enter2 | free1 | free2
deriving DecidableEq, Repr

/-- Messages produced for a given destination. -/
def toDest (d : ℕ) (out : List (ℕ × Message)) : List Message :=
  (out.filter (fun p => p.1 = d)).map Prod.snd

/-- One step of the two-node run; `none` when the action is not enabled. -/
def stepSys (s : Sys) : Act → Option Sys
  | Act.ask1 =>
      let (v, out) := ask_access 2 1 [2] s.v1
      some { s with v1 := v, c12 := s.c12 ++ toDest 2 out }
  | Act.ask2 =>
      let (v, out) := ask_access 2 2 [1] s.v2
      some { s with v2 := v, c21 := s.c21 ++ toDest 1 out }
  | Act.recv1 =>
      match s.c21 with
      | [] => none
      | m :: rest =>
          let (v, out) := receiverStep 1 s.v1 m
          some { s with v1 := v, c21 := rest, c12 := s.c12 ++ toDest 2 out }
  | Act.recv2 =>
      match s.c12 with
      | [] => none
      | m :: rest =>
          let (v, out) := receiverStep 2 s.v2 m
          some { s with v2 := v, c12 := rest, c21 := s.c21 ++ toDest 1 out }
  | Act.enter1 =>
      if s.v1.critical_state = CriticalState.Asking ∧ s.v1.awaited = ∅ then
        some { s with v1 := { s.v1 with critical_state := CriticalState.In } }
      else none
  | Act.enter2 =>
      if s.v2.critical_state = CriticalState.Asking ∧ s.v2.awaited = ∅ then
        some { s with v2 := { s.v2 with critical_state := CriticalState.In } }
      else none
  | Act.free1 =>
      let (v, out) := free_access 1 s.v1
      some { s with v1 := v, c12 := s.c12 ++ toDest 2 out }
  | Act.free2 =>
      let (v, out) := free_access 2 s.v2
      some { s with v2 := v, c21 := s.c21 ++ toDest 1 out }

/-- Executes a sequence of actions from a state. -/
def runTrace (s : Sys) : List Act → Option Sys
  | [] => some s
  | a :: r => (stepSys s a).bind (fun s' => runTrace s' r)

/-- Both nodes start Idle with empty channels. -/
def initSys : Sys :=
  { v1 := Variables.default, v2 := Variables.default, c12 := [], c21 := [] }

/-- The interleaving in which both nodes request with equal timestamps:
both ask, each delivers the other's request, each delivers the resulting
permission, then both wake and enter. -/
def tieTrace : List Act :=
  [Act.ask1, Act.ask2, Act.recv1, Act.recv2, Act.recv2, Act.recv1,
   Act.enter1, Act.enter2]

/-! ## Claims about the Ricart-Agrawala engine -/

/-- Claim C1: the receiver's priority decision omits the identifier
tie-break required by the specification.  At state Asking with
`last_request_ts = 5`, an inbound `Request{5, 2}` at node 1 should be
deferred according to the claim (`last = t` and `self = 1 < 2 = r`), but the
code computes `prioritized = (state ≠ Out ∧ last < t) = false`, defers
nothing and immediately replies `Permission{1}`. -/
theorem priority_tie_break_missing :
    specPriority { Variables.default with
        critical_state := CriticalState.Asking, clock := 5, last := 5 } 5 2 1 = true ∧
    receiverStep 1 { Variables.default with
        critical_state := CriticalState.Asking, clock := 5, last := 5 }
        (Message.Request 5 2) =
      ({ Variables.default with
          critical_state := CriticalState.Asking, clock := 5, last := 5 },
        [(2, Message.Permission 1)]) := by
  constructor
  · rfl
  · rfl

/-- Claim C2: `ask_access` sets `awaited` to all identifiers `1..N` other
than self, not to the node's neighbour set.  With `N = 3`, `self = 1` and
peer map keys `[2]` (node 1's only neighbour is node 2), the state update
yields `awaited = {2, 3}` while the neighbour set minus self is `{2}`; the
requests themselves do go one per neighbour with the snapshotted clock. -/
theorem ask_awaited_not_neighbours :
    (askUpdate 3 1 Variables.default).awaited = ({2, 3} : Finset ℕ) ∧
    ({2, 3} : Finset ℕ) ≠ ([2].toFinset \ {1}) ∧
    ask_access 3 1 [2] Variables.default =
      (askUpdate 3 1 Variables.default, [(2, Message.Request 1 1)]) := by
  refine ⟨by decide, by decide, rfl⟩

/-- Claim C4: mutual exclusion at the edge fails.  In the two-node graph
with the single edge (1,2), the interleaving `tieTrace` — both nodes issue
`ask_access` with equal timestamps, each receives the other's request
(granting, because the priority test has no tie-break), then each receives
the other's permission and enters — ends with both neighbours
simultaneously in the critical state. -/
theorem neighbours_both_in_critical_section :
    (runTrace initSys tieTrace).map
        (fun s => (s.v1.critical_state, s.v2.critical_state)) =
      some (CriticalState.In, CriticalState.In) := by
  decide

/-- Claim C5: when `free_access` returns, the state is Out (Idle), exactly
one `Permission{self}` has been produced per entry that was in the deferred
sequence, in insertion order, and the deferred sequence is empty. -/
theorem free_access_flushes_deferred (selfId : ℕ) (v : Variables) :
    (free_access selfId v).1.critical_state = CriticalState.Out ∧
    (free_access selfId v).1.differed = [] ∧
    (free_access selfId v).2 = v.differed.map (fun d => (d, Message.Permission selfId)) :=
  ⟨rfl, rfl, rfl⟩

/-- Claim C6: the Lamport clock never decreases — `ask_access` increments
it, a processed inbound `Request{t, r}` sets it to `max(clock, t)`, an
inbound `Permission` leaves it unchanged — and the priority decision of a
processed request equals the decision computed on the state whose clock has
already been updated to `max(clock, t)`. -/
theorem clock_monotone (v : Variables) (nodesCount selfId t r a : ℕ) :
    v.clock ≤ (askUpdate nodesCount selfId v).clock ∧
    v.clock ≤ (receiverStep selfId v (Message.Request t r)).1.clock ∧
    (receiverStep selfId v (Message.Permission a)).1.clock = v.clock ∧
    (¬(t = 0 ∨ r = 0) →
      (receiverStep selfId v (Message.Request t r)).1.clock = max v.clock t ∧
      (receiverStep selfId v (Message.Request t r)).1.prioritized =
        priorityOf { v with clock := max v.clock t } t) := by
  refine ⟨Nat.le_succ _, ?_, ?_, ?_⟩
  · unfold receiverStep
    by_cases h : t = 0 ∨ r = 0
    · simp [h]
    · simp only [h, if_false]
      by_cases hp : priorityOf { v with clock := max t v.clock } t
      · simp [hp, Nat.le_max_right]
      · simp [hp, Nat.le_max_right]
  · unfold receiverStep
    cases hst : v.critical_state <;> simp
    by_cases h : a = 0 <;> simp [h]
  · intro h
    unfold receiverStep
    simp only [h, if_false]
    by_cases hp : priorityOf { v with clock := max t v.clock } t
    · simp [hp, Nat.max_comm]
    · simp [hp, Nat.max_comm]

/-- Witness for `clock_monotone` at a concrete input with the request
hypothesis discharged. -/
theorem clock_monotone_witness :
    ¬((3 : ℕ) = 0 ∨ (2 : ℕ) = 0) ∧
    ((receiverStep 1 Variables.default (Message.Request 3 2)).1.clock =
        max Variables.default.clock 3 ∧
      (receiverStep 1 Variables.default (Message.Request 3 2)).1.prioritized =
        priorityOf { Variables.default with clock := max Variables.default.clock 3 } 3) :=
  ⟨by decide, (clock_monotone Variables.default 2 1 3 2 1).2.2.2 (by decide)⟩

/-- Claim C10: the receiver silently discards — state unchanged, nothing
sent — every `Request` whose clock or requester is 0, every `Permission`
whose authorizer is 0, and every `Permission` arriving while the state is
not Asking. -/
theorem receiver_discards_invalid (v : Variables) (selfId t r a : ℕ) :
    (t = 0 ∨ r = 0 → receiverStep selfId v (Message.Request t r) = (v, [])) ∧
    (a = 0 → receiverStep selfId v (Message.Permission a) = (v, [])) ∧
    (v.critical_state ≠ CriticalState.Asking →
      receiverStep selfId v (Message.Permission a) = (v, [])) := by
  refine ⟨fun h => by simp [receiverStep, h], fun h => ?_, fun h => ?_⟩
  · unfold receiverStep
    cases v.critical_state <;> simp [h]
  · unfold receiverStep
    cases hst : v.critical_state <;> simp_all

/-- Witness for `receiver_discards_invalid`, discharging each hypothesis at
a concrete input (the default state is Out, hence not Asking). -/
theorem receiver_discards_invalid_witness :
    receiverStep 1 Variables.default (Message.Request 0 2) = (Variables.default, []) ∧
    receiverStep 1 Variables.default (Message.Permission 0) = (Variables.default, []) ∧
    receiverStep 1 Variables.default (Message.Permission 2) = (Variables.default, []) :=
  ⟨(receiver_discards_invalid Variables.default 1 0 2 0).1 (Or.inl rfl),
   (receiver_discards_invalid Variables.default 1 0 2 0).2.1 rfl,
   (receiver_discards_invalid Variables.default 1 0 2 2).2.2 (by decide)⟩

/-! ## Graph-file parsing (src/coordinator/src/graph.rs)

Lines are the result of splitting the input on the newline character and
dropping empty strings; each line is classified by its first character.
Strings are handled as lists of characters. -/

/-- Whitespace in the sense of Rust `char::is_whitespace` (the Unicode
White_Space property), used by `split_whitespace`. -/
def isWS (c : Char) : Bool :=
  c.toNat ∈ ([0x9, 0xA, 0xB, 0xC, 0xD, 0x20, 0x85, 0xA0, 0x1680,
    0x2000, 0x2001, 0x2002, 0x2003, 0x2004, 0x2005, 0x2006, 0x2007,
    0x2008, 0x2009, 0x200A, 0x2028, 0x2029, 0x202F, 0x205F, 0x3000] : List ℕ)

/-- Splits a character list into maximal whitespace-free tokens
(Rust `str::split_whitespace`). -/
def splitWSAux : List Char → List Char → List (List Char)
  | [], cur => if cur = [] then [] else [cur.reverse]
  | c :: rest, cur =>
      if isWS c then
        if cur = [] then splitWSAux rest []
        else cur.reverse :: splitWSAux rest []
      else splitWSAux rest (c :: cur)

/-- Tokens of a line. -/
def splitWS (cs : List Char) : List (List Char) := splitWSAux cs []

/-- Splits on the newline character, keeping empty pieces
(Rust `str::split("\n")`). -/
def splitNl : List Char → List Char → List (List Char)
  | [], cur => [cur.reverse]
  | c :: rest, cur =>
      if c = '\n' then cur.reverse :: splitNl rest []
      else splitNl rest (c :: cur)

/-- `str::parse::<usize>`: an optional leading plus sign, then one or more
decimal digits, with the value below 2^64. -/
def parseUsize (cs : List Char) : Option ℕ :=
  let ds := match cs with
    | '+' :: r => r
    | r => r
  if ds ≠ [] ∧ ds.all Char.isDigit then
    let v := ds.foldl (fun a c => a * 10 + (c.toNat - 48)) 0
    if v < 2 ^ 64 then some v else none
  else none

/-- Mirrors `enum Line` in graph.rs. -/
inductive Line where
  | Comment (s : List Char)
  | Manifest (v e : ℕ)
  | Edge (v1 v2 : ℕ)
deriving DecidableEq

/-- Mirrors `enum LineParsingError`. -/
inductive LineParsingError where
  | EmptyLine
  | UnknownMarker (s : List Char) (c : Char)
  | UnexpectedArguments (s : List Char) (a b : ℕ)
deriving DecidableEq

/-- Mirrors `enum GraphParsingError`. -/
inductive GraphParsingError where
  | InvalidGraph
  | Uninitialized
  | LineParsing (e : LineParsingError)
deriving DecidableEq

/-- The `hints.len() == 2` check shared by the manifest and edge branches of
`Line::from_str`. -/
def twoArgs (cs : List Char) (mk : ℕ → ℕ → Line) (hints : List ℕ) :
    Except LineParsingError Line :=
  match hints with
  | [a, b] => Except.ok (mk a b)
  | hints => Except.error (LineParsingError.UnexpectedArguments cs 2 hints.length)

/-- Mirrors `impl FromStr for Line`: classify by the first character; for a
manifest skip two tokens (the marker and the tag), for an edge skip one
token, keep the tokens that parse as numbers and require exactly two. -/
def lineFromStr (cs : List Char) : Except LineParsingError Line :=
  match cs.head? with
  | none => Except.error LineParsingError.EmptyLine
  | some c =>
      if c = 'c' then Except.ok (Line.Comment cs)
      else if c = 'p' then
        twoArgs cs Line.Manifest (((splitWS cs).drop 2).filterMap parseUsize)
      else if c = 'e' then
        twoArgs cs Line.Edge (((splitWS cs).drop 1).filterMap parseUsize)
      else Except.error (LineParsingError.UnknownMarker cs c)

/-- Mirrors `pub struct Graph`. -/
structure Graph where
  vertices : Finset ℕ
  edges : Finset (ℕ × ℕ)
deriving DecidableEq

/-- One iteration of the parsing loop body in `Graph::from_str`: comments
are skipped, a manifest (re)initialises both sets to empty, an edge
requires the sets to be initialised and inserts both endpoints and the
canonical pair `(min, max)`. -/
def applyLine (st : Option (Finset ℕ) × Option (Finset (ℕ × ℕ))) :
    Line → Except GraphParsingError (Option (Finset ℕ) × Option (Finset (ℕ × ℕ)))
  | Line.Comment _ => Except.ok st
  | Line.Manifest _ _ => Except.ok (some ∅, some ∅)
  | Line.Edge v1 v2 =>
      match st.1 with
      | none => Except.error GraphParsingError.Uninitialized
      | some vs =>
          match st.2 with
          | none => Except.error GraphParsingError.Uninitialized
          | some es =>
              Except.ok (some (insert v2 (insert v1 vs)),
                some (insert (min v1 v2, max v1 v2) es))

/-- The parsing loop of `Graph::from_str` over the pre-parsed lines,
followed by the final unwrap of the two optional sets. -/
def processLines (st : Option (Finset ℕ) × Option (Finset (ℕ × ℕ))) :
    List (Except LineParsingError Line) → Except GraphParsingError Graph
  | [] =>
      match st with
      | (some vs, some es) => Except.ok ⟨vs, es⟩
      | _ => Except.error GraphParsingError.InvalidGraph
  | p :: rest =>
      match p with
      | Except.error e => Except.error (GraphParsingError.LineParsing e)
      | Except.ok l =>
          match applyLine st l with
          | Except.error e => Except.error e
          | Except.ok st' => processLines st' rest

/-- The non-empty lines of the input
(`s.split("\n").filter(|s| !s.is_empty())`). -/
def linesOf (s : String) : List (List Char) :=
  (splitNl s.toList []).filter (fun l => l ≠ [])

/-- The non-empty lines of the input, each parsed by `lineFromStr`. -/
def parsedLines (s : String) : List (Except LineParsingError Line) :=
  (linesOf s).map lineFromStr

/-- Mirrors `impl FromStr for Graph`. -/
def graphFromStr (s : String) : Except GraphParsingError Graph :=
  processLines (none, none) (parsedLines s)

/-! ## Coordinator registration phase (src/coordinator/src/main.rs lines 22-43) -/

/-- The registration loop: the coordinator keeps receiving datagrams until
it has as many registrations as the parsed graph has vertices.  Given the
stream of arriving registrations, it consumes exactly the first
`count` of them (`none` when the stream is too short and the loop would
block forever). -/
def registrationAddresses (count : ℕ) (datagrams : List α) : Option (List α) :=
  if count ≤ datagrams.length then some (datagrams.take count) else none

/-- Identifier assignment of the plan-push loop
(`for (i, addr) in addresses.iter().enumerate() { let id = NodeId(i + 1); ... }`):
position `i` in arrival order receives identifier `i + 1`. -/
def planIds (addresses : List α) : List ℕ :=
  (List.range addresses.length).map (fun i => i + 1)

/-- The vertex set actually accumulated by the parsing loop: endpoints of
edge lines, reset to empty by every manifest line. -/
def verticesAfter (acc : Finset ℕ) : List (Except LineParsingError Line) → Finset ℕ
  | [] => acc
  | Except.ok (Line.Manifest _ _) :: r => verticesAfter ∅ r
  | Except.ok (Line.Edge a b) :: r => verticesAfter (insert b (insert a acc)) r
  | _ :: r => verticesAfter acc r

lemma processLines_ok_vertices (ps : List (Except LineParsingError Line)) :
    ∀ (vs : Finset ℕ) (es : Finset (ℕ × ℕ)) (g : Graph),
      processLines (some vs, some es) ps = Except.ok g →
      g.vertices = verticesAfter vs ps := by
  induction ps with
  | nil =>
      intro vs es g h
      simp only [processLines] at h
      cases h
      rfl
  | cons p rest ih =>
      intro vs es g h
      match p with
      | Except.error e => simp [processLines] at h
      | Except.ok (Line.Comment s) =>
          simpa [processLines, applyLine, verticesAfter] using ih vs es g h
      | Except.ok (Line.Manifest a b) =>
          simpa [processLines, applyLine, verticesAfter] using ih ∅ ∅ g h
      | Except.ok (Line.Edge a b) =>
          simpa [processLines, applyLine, verticesAfter] using
            ih (insert b (insert a vs)) (insert (min a b, max a b) es) g h

lemma graphFromStr_vertices (s : String) (g : Graph)
    (h : graphFromStr s = Except.ok g) :
    g.vertices = verticesAfter ∅ (parsedLines s) := by
  unfold graphFromStr at h
  generalize hps : parsedLines s = ps at *
  clear hps
  induction ps with
  | nil => simp [processLines] at h
  | cons p rest ih =>
      match p with
      | Except.error e => simp [processLines] at h
      | Except.ok (Line.Comment c) =>
          simpa [processLines, applyLine, verticesAfter] using ih h
      | Except.ok (Line.Manifest a b) =>
          simpa [processLines, applyLine, verticesAfter] using
            processLines_ok_vertices rest ∅ ∅ g h
      | Except.ok (Line.Edge a b) =>
          simp [processLines, applyLine] at h

/-- Claim C7 fails: a manifest declaring 3 vertices followed by the single
edge line `e 1 2` parses successfully, but the vertex set holds only the two
edge endpoints — vertex 3 is absent — so it is not `{1..3}`. -/
theorem graph_vertices_counterexample :
    (graphFromStr "p edge 3 1\ne 1 2").toOption.map
        (fun g => (g.vertices.card, decide (1 ∈ g.vertices),
          decide (2 ∈ g.vertices), decide (3 ∈ g.vertices))) =
      some (2, true, true, false) := by
  decide

/-- Claim C7 amended: after a successful parse the vertex set equals the
endpoints accumulated from the edge lines (reset at each manifest line), not
`{1..N}`; the coordinator then consumes exactly `|vertices|` registration
datagrams and assigns identifiers `1..|vertices|` in arrival order. -/
theorem graph_vertices_and_registration (s : String) (g : Graph) (rs : List ℕ)
    (hok : graphFromStr s = Except.ok g)
    (hlen : g.vertices.card ≤ rs.length) :
    g.vertices = verticesAfter ∅ (parsedLines s) ∧
    registrationAddresses g.vertices.card rs = some (rs.take g.vertices.card) ∧
    planIds (rs.take g.vertices.card) =
      (List.range g.vertices.card).map (fun i => i + 1) := by
  refine ⟨graphFromStr_vertices s g hok, ?_, ?_⟩
  · simp [registrationAddresses, hlen]
  · simp [planIds, List.length_take, Nat.min_eq_left hlen]

/-- Witness for `graph_vertices_and_registration` on a concrete two-vertex
graph and two registrations. -/
theorem graph_vertices_and_registration_witness :
    graphFromStr "p edge 2 1\ne 1 2" =
      Except.ok ⟨insert 2 (insert 1 ∅), insert (1, 2) ∅⟩ ∧
    (Graph.mk (insert 2 (insert 1 ∅)) (insert (1, 2) ∅)).vertices.card ≤
      [(10 : ℕ), 20].length ∧
    ((Graph.mk (insert 2 (insert 1 ∅)) (insert (1, 2) ∅)).vertices =
        verticesAfter ∅ (parsedLines "p edge 2 1\ne 1 2") ∧
      registrationAddresses
          (Graph.mk (insert 2 (insert 1 ∅)) (insert (1, 2) ∅)).vertices.card
          [(10 : ℕ), 20] =
        some ([(10 : ℕ), 20].take
          (Graph.mk (insert 2 (insert 1 ∅)) (insert (1, 2) ∅)).vertices.card) ∧
      planIds ([(10 : ℕ), 20].take
          (Graph.mk (insert 2 (insert 1 ∅)) (insert (1, 2) ∅)).vertices.card) =
        (List.range
            (Graph.mk (insert 2 (insert 1 ∅)) (insert (1, 2) ∅)).vertices.card).map
          (fun i => i + 1)) :=
  ⟨rfl, by decide,
    graph_vertices_and_registration "p edge 2 1\ne 1 2"
      ⟨insert 2 (insert 1 ∅), insert (1, 2) ∅⟩ [10, 20] rfl (by decide)⟩

/-- Claim C9: an edge line inserts the canonical pair `(min, max)` together
with both endpoints; `e A B` and `e B A` produce the same state, inserting
an already-present canonical pair changes nothing, and at the string level
`e 5 3` and `e 3 5` yield the same edge set while a duplicated unordered
pair leaves a single edge. -/
theorem edge_canonical (a b : ℕ) (vs : Finset ℕ) (es : Finset (ℕ × ℕ)) :
    applyLine (some vs, some es) (Line.Edge a b) =
      Except.ok (some (insert b (insert a vs)), some (insert (min a b, max a b) es)) ∧
    applyLine (some vs, some es) (Line.Edge a b) =
      applyLine (some vs, some es) (Line.Edge b a) ∧
    applyLine (some (insert b (insert a vs)), some (insert (min a b, max a b) es))
        (Line.Edge a b) =
      Except.ok (some (insert b (insert a (insert b (insert a vs)))),
        some (insert (min a b, max a b) es)) ∧
    insert (min a b, max a b) (insert (min a b, max a b) es) =
      insert (min a b, max a b) es ∧
    (graphFromStr "p edge 2 1\ne 5 3").toOption.map Graph.edges =
      (graphFromStr "p edge 2 1\ne 3 5").toOption.map Graph.edges ∧
    (graphFromStr "p edge 2 1\ne 5 3\ne 3 5").toOption.map (fun g => g.edges.card) =
      some 1 := by
  refine ⟨rfl, ?_, ?_, Finset.insert_idem _ _, by decide, by decide⟩
  · simp only [applyLine]
    rw [Finset.Insert.comm a b vs, Nat.min_comm, Nat.max_comm]
  · simp only [applyLine, Finset.insert_idem]

/-! ## Characterising the parse failures (claim C8) -/

/-- Whether graph parsing succeeded. -/
def exOk : Except GraphParsingError Graph → Bool
  | Except.ok _ => true
  | Except.error _ => false

/-- A parsed line that is a parse error. -/
def isErrB : Except LineParsingError Line → Bool
  | Except.error _ => true
  | Except.ok _ => false

/-- A parsed line that is a manifest. -/
def isManifestB : Except LineParsingError Line → Bool
  | Except.ok (Line.Manifest _ _) => true
  | _ => false

/-- Whether some edge line occurs with no manifest line before it, over the
parsed lines. -/
def edgeFirst : List (Except LineParsingError Line) → Bool
  | [] => false
  | Except.ok (Line.Manifest _ _) :: _ => false
  | Except.ok (Line.Edge _ _) :: _ => true
  | _ :: r => edgeFirst r

/-- Claim-side: a non-empty line starting with a character other than
`c`, `p` or `e`. -/
def headIsUnknown : List Char → Bool
  | [] => false
  | c :: _ => !(c = 'c' || c = 'p' || c = 'e')

/-- Claim-side: a `p` or `e` line that does not carry exactly two numeric
arguments (numeric tokens after the marker — and, for `p`, the tag). -/
def wrongArity : List Char → Bool
  | [] => false
  | c :: r =>
      if c = 'p' then
        decide ((((splitWS (c :: r)).drop 2).filterMap parseUsize).length ≠ 2)
      else if c = 'e' then
        decide ((((splitWS (c :: r)).drop 1).filterMap parseUsize).length ≠ 2)
      else false

/-- Claim-side: an edge line (leading `e`) appearing before any manifest
line (leading `p`). -/
def edgeBeforeManifest : List (List Char) → Bool
  | [] => false
  | [] :: r => edgeBeforeManifest r
  | (c :: _) :: r =>
      if c = 'p' then false
      else if c = 'e' then true
      else edgeBeforeManifest r

/-- A line with leading `p`. -/
def hasManifestLine : List (List Char) → Bool
  | [] => false
  | [] :: r => hasManifestLine r
  | (c :: _) :: r => (c = 'p') || hasManifestLine r

/-- The failure condition exactly as claim C8 states it: an edge line before
any manifest line, a `p`/`e` line of wrong numeric arity, or an unknown
leading character. -/
def claimedFailureCond (s : String) : Bool :=
  ((linesOf s).any (fun l => headIsUnknown l || wrongArity l)) ||
    edgeBeforeManifest (linesOf s)

/-- The amended failure condition: the claimed one, plus the input
containing no manifest line at all. -/
def amendedFailureCond (s : String) : Bool :=
  claimedFailureCond s || !hasManifestLine (linesOf s)

lemma twoArgs_err (cs : List Char) (mk : ℕ → ℕ → Line) (hints : List ℕ) :
    isErrB (twoArgs cs mk hints) = decide (hints.length ≠ 2) := by
  rcases hints with _ | ⟨a, _ | ⟨b, _ | ⟨x, t⟩⟩⟩ <;>
    simp [twoArgs, isErrB]

/-- Classification of a non-empty line: either it fails to parse and the
claim-side bad-line predicate holds, or it parses to the constructor
matching its leading character and the bad-line predicate fails. -/
lemma line_cases (c : Char) (r : List Char) :
    (isErrB (lineFromStr (c :: r)) = true ∧
      (headIsUnknown (c :: r) || wrongArity (c :: r)) = true) ∨
    ((∃ s, lineFromStr (c :: r) = Except.ok (Line.Comment s)) ∧
      (headIsUnknown (c :: r) || wrongArity (c :: r)) = false ∧
      c ≠ 'p' ∧ c ≠ 'e') ∨
    ((∃ a b, lineFromStr (c :: r) = Except.ok (Line.Manifest a b)) ∧
      (headIsUnknown (c :: r) || wrongArity (c :: r)) = false ∧ c = 'p') ∨
    ((∃ a b, lineFromStr (c :: r) = Except.ok (Line.Edge a b)) ∧
      (headIsUnknown (c :: r) || wrongArity (c :: r)) = false ∧ c = 'e') := by
  by_cases hc : c = 'c'
  · subst hc
    refine Or.inr (Or.inl ⟨⟨_, rfl⟩, ?_, by decide, by decide⟩)
    simp [headIsUnknown, wrongArity]
  · by_cases hp : c = 'p'
    · subst hp
      rcases hh : ((splitWS ('p' :: r)).drop 2).filterMap parseUsize with
        _ | ⟨a, _ | ⟨b, _ | ⟨x, t⟩⟩⟩
      · refine Or.inl ⟨?_, ?_⟩ <;>
          simp [lineFromStr, twoArgs, isErrB, headIsUnknown, wrongArity, hh]
      · refine Or.inl ⟨?_, ?_⟩ <;>
          simp [lineFromStr, twoArgs, isErrB, headIsUnknown, wrongArity, hh]
      · refine Or.inr (Or.inr (Or.inl ⟨⟨a, b, ?_⟩, ?_, rfl⟩))
        · simp [lineFromStr, twoArgs, hh]
        · simp [headIsUnknown, wrongArity, hh]
      · refine Or.inl ⟨?_, ?_⟩ <;>
          simp [lineFromStr, twoArgs, isErrB, headIsUnknown, wrongArity, hh]
    · by_cases he : c = 'e'
      · subst he
        rcases hh : ((splitWS ('e' :: r)).tail).filterMap parseUsize with
          _ | ⟨a, _ | ⟨b, _ | ⟨x, t⟩⟩⟩
        · refine Or.inl ⟨?_, ?_⟩ <;>
            simp [lineFromStr, twoArgs, isErrB, headIsUnknown, wrongArity, hh]
        · refine Or.inl ⟨?_, ?_⟩ <;>
            simp [lineFromStr, twoArgs, isErrB, headIsUnknown, wrongArity, hh]
        · refine Or.inr (Or.inr (Or.inr ⟨⟨a, b, ?_⟩, ?_, rfl⟩))
          · simp [lineFromStr, twoArgs, hh]
          · simp [headIsUnknown, wrongArity, hh]
        · refine Or.inl ⟨?_, ?_⟩ <;>
            simp [lineFromStr, twoArgs, isErrB, headIsUnknown, wrongArity, hh]
      · refine Or.inl ⟨?_, ?_⟩ <;>
          simp [lineFromStr, isErrB, headIsUnknown, wrongArity, hc, hp, he]

lemma processLines_initialized (ps : List (Except LineParsingError Line)) :
    ∀ (vs : Finset ℕ) (es : Finset (ℕ × ℕ)),
      exOk (processLines (some vs, some es) ps) = !(ps.any isErrB) := by
  induction ps with
  | nil => intro vs es; simp [processLines, isErrB, exOk]
  | cons p rest ih =>
      intro vs es
      match p with
      | Except.error e => simp [processLines, isErrB, exOk]
      | Except.ok (Line.Comment s) => simp [processLines, applyLine, isErrB, ih]
      | Except.ok (Line.Manifest a b) => simp [processLines, applyLine, isErrB, ih]
      | Except.ok (Line.Edge a b) => simp [processLines, applyLine, isErrB, ih]

lemma processLines_uninitialized (ps : List (Except LineParsingError Line)) :
    exOk (processLines (none, none) ps) =
      !(ps.any isErrB || edgeFirst ps || !(ps.any isManifestB)) := by
  induction ps with
  | nil => simp [processLines, edgeFirst, exOk]
  | cons p rest ih =>
      match p with
      | Except.error e => simp [processLines, isErrB, exOk]
      | Except.ok (Line.Comment s) =>
          simpa [processLines, applyLine, isErrB, isManifestB, edgeFirst] using ih
      | Except.ok (Line.Manifest a b) =>
          simp [processLines, applyLine, isErrB, isManifestB, edgeFirst,
            processLines_initialized]
      | Except.ok (Line.Edge a b) =>
          simp [processLines, applyLine, isErrB, edgeFirst, exOk]

/-- Lifts `line_cases` to the line list: the parsed-line predicates used by
the parsing loop agree with the claim-side lexical predicates. -/
lemma lines_bridge (ls : List (List Char)) (h : ∀ l ∈ ls, l ≠ []) :
    (ls.map lineFromStr).any isErrB = ls.any (fun l => headIsUnknown l || wrongArity l) ∧
    ((ls.map lineFromStr).any isErrB = false →
      edgeFirst (ls.map lineFromStr) = edgeBeforeManifest ls ∧
      (ls.map lineFromStr).any isManifestB = hasManifestLine ls) := by
  induction ls with
  | nil => simp [edgeFirst, edgeBeforeManifest, hasManifestLine]
  | cons l rest ih =>
      have hl : l ≠ [] := h l (List.mem_cons_self l rest)
      have hrest := ih (fun x hx => h x (List.mem_cons_of_mem l hx))
      obtain ⟨c, r, rfl⟩ : ∃ c r, l = c :: r := by
        cases l with
        | nil => exact absurd rfl hl
        | cons c r => exact ⟨c, r, rfl⟩
      rcases line_cases c r with
        ⟨he, hb⟩ | ⟨⟨s, hs⟩, hb, hnp, hne⟩ | ⟨⟨a, b, hs⟩, hb, hp⟩ | ⟨⟨a, b, hs⟩, hb, hp⟩
      · refine ⟨by simp [he, hb], fun hfalse => ?_⟩
        rw [List.map_cons, List.any_cons, he, Bool.true_or] at hfalse
        exact absurd hfalse (by simp)
      · refine ⟨by simp [hs, isErrB, hb, hrest.1], fun hfalse => ?_⟩
        rw [List.map_cons, List.any_cons, hs] at hfalse
        simp only [isErrB, Bool.false_or] at hfalse
        refine ⟨?_, ?_⟩
        · rw [List.map_cons, hs]
          show edgeFirst (Except.ok (Line.Comment s) :: List.map lineFromStr rest) = _
          rw [show edgeFirst (Except.ok (Line.Comment s) :: List.map lineFromStr rest) =
              edgeFirst (List.map lineFromStr rest) from rfl]
          rw [show edgeBeforeManifest ((c :: r) :: rest) =
              (if c = 'p' then false
               else if c = 'e' then true else edgeBeforeManifest rest) from rfl]
          rw [if_neg hnp, if_neg hne]
          exact (hrest.2 hfalse).1
        · rw [List.map_cons, List.any_cons, hs]
          simp only [isManifestB, Bool.false_or]
          rw [show hasManifestLine ((c :: r) :: rest) =
              ((c = 'p') || hasManifestLine rest) from rfl]
          rw [decide_eq_false hnp, Bool.false_or]
          exact (hrest.2 hfalse).2
      · subst hp
        refine ⟨by simp [hs, isErrB, hb, hrest.1], fun hfalse => ?_⟩
        refine ⟨?_, ?_⟩
        · rw [List.map_cons, hs]
          rfl
        · rw [List.map_cons, List.any_cons, hs]
          simp only [isManifestB, Bool.true_or]
          rw [show hasManifestLine (('p' :: r) :: rest) =
              (('p' = 'p') || hasManifestLine rest) from rfl]
          simp
      · subst hp
        refine ⟨by simp [hs, isErrB, hb, hrest.1], fun hfalse => ?_⟩
        rw [List.map_cons, List.any_cons, hs] at hfalse
        simp only [isErrB, Bool.false_or] at hfalse
        refine ⟨?_, ?_⟩
        · rw [List.map_cons, hs]
          rfl
        · rw [List.map_cons, List.any_cons, hs]
          simp only [isManifestB, Bool.false_or]
          rw [show hasManifestLine (('e' :: r) :: rest) =
              (('e' = 'p') || hasManifestLine rest) from rfl]
          rw [show (('e' : Char) = 'p' : Bool) = false by decide, Bool.false_or]
          exact (hrest.2 hfalse).2

/-- Claim C8 fails: the input consisting of the single comment line `c x`
triggers none of the claim's three error conditions, yet parsing returns an
error (the file never declares a manifest, so the final unwrap fails). -/
theorem parse_failure_counterexample :
    claimedFailureCond "c x" = false ∧ exOk (graphFromStr "c x") = false := by
  constructor
  · rfl
  · rfl

/-- Claim C8 amended: graph parsing fails exactly when an edge line precedes
every earlier manifest line, a `p`/`e` line does not carry exactly two
numeric arguments, a non-empty line starts with a character other than
`c`/`p`/`e`, or — the added case — the input contains no manifest line at
all. -/
theorem parse_failure_iff (s : String) :
    exOk (graphFromStr s) = false ↔ amendedFailureCond s = true := by
  have hne : ∀ l ∈ linesOf s, l ≠ [] := by
    intro l hlmem
    have := List.of_mem_filter hlmem
    simpa using this
  have hbridge := lines_bridge (linesOf s) hne
  have hchar : exOk (graphFromStr s) =
      !((parsedLines s).any isErrB || edgeFirst (parsedLines s) ||
        !((parsedLines s).any isManifestB)) :=
    processLines_uninitialized (parsedLines s)
  unfold amendedFailureCond claimedFailureCond
  rw [hchar]
  unfold parsedLines
  rw [hbridge.1]
  by_cases hae : (linesOf s).any (fun l => headIsUnknown l || wrongArity l)
  · have : ((linesOf s).map lineFromStr).any isErrB = true := by
      rw [hbridge.1]; exact hae
    simp [hae, this]
  · have hae' : (linesOf s).any (fun l => headIsUnknown l || wrongArity l) = false := by
      simpa using hae
    have herr : ((linesOf s).map lineFromStr).any isErrB = false := by
      rw [hbridge.1]; exact hae'
    obtain ⟨hedge, hman⟩ := hbridge.2 herr
    rw [hae', hedge, hman]
    cases hE : edgeBeforeManifest (linesOf s) <;>
      cases hM : hasManifestLine (linesOf s) <;> simp

/-! ## Plan-push wire encoding (coordinator main.rs lines 40-43, node
lib.rs lines 42-44)

bincode with its default options serialises `usize` (and the newtype
`NodeId`) as 8 little-endian bytes, ignores trailing bytes on
deserialisation, and serialises a tuple as the concatenation of its
fields. -/

/-- The 8 little-endian bytes of a `usize` value. -/
def leBytes (n : ℕ) : List ℕ :=
  (List.range 8).map (fun k => n / 256 ^ k % 256)

/-- Reads a little-endian byte list back as a number. -/
def fromLEBytes (bs : List ℕ) : ℕ :=
  bs.foldr (fun b acc => b + 256 * acc) 0

/-- The first datagram the coordinator sends to the node registered at
position `i`: `bincode::serialize(&NodeId(i + 1))` — the identifier alone
(coordinator main.rs line 43). -/
def firstPlanDatagram (i : ℕ) : List ℕ :=
  leBytes (i + 1)

/-- The node's zero-initialised 1024-byte receive buffer after one datagram
has been copied into it (node lib.rs lines 35 and 43). -/
def recvInto1024 (d : List ℕ) : List ℕ :=
  d ++ List.replicate (1024 - d.length) 0

/-- The node's decode of its first reply:
`bincode::deserialize::<(usize, NodeId)>(&buf)` — eight bytes for the node
count, then eight bytes for the identifier (node lib.rs line 44). -/
def decodeCountAndId (buf : List ℕ) : ℕ × ℕ :=
  (fromLEBytes (buf.take 8), fromLEBytes ((buf.drop 8).take 8))

/-- Claim C3 fails: in a 2-node run, the first plan datagram for the first
registered node (index 0, identifier 1) carries only the identifier, so the
node's pair decode yields `(1, 0)` — node count 1 (actually the
identifier) and identifier 0 (buffer padding) — not the claimed
`(N, id) = (2, 1)`. -/
theorem first_datagram_lacks_node_count :
    firstPlanDatagram 0 = [1, 0, 0, 0, 0, 0, 0, 0] ∧
    decodeCountAndId (recvInto1024 (firstPlanDatagram 0)) = (1, 0) ∧
    (1, 0) ≠ ((2 : ℕ), (1 : ℕ)) := by
  refine ⟨by decide, ?_, by decide⟩
  decide

end Renraku
